import Mathlib

/-!
Shallow embedding of the hawc_hal multi-bin likelihood engine
(src/hawc_hal/HAL.py, src/hawc_hal/response.py,
src/hawc_hal/interpolation/fast_linear_interpolator.py).

Conventions of the embedding:
* numpy float arrays become `List ℝ`; numpy elementwise ops become `List.map` /
  `List.zipWith`; `np.sum` becomes `List.sum`.
* External collaborators that live outside src/ (the ConvolvedPointSource /
  ConvolvedExtendedSource classes of convolved_source.py, the PSFConvolutor of
  psf_fast.py, the FlatSkyToHealpixTransform, the threeML logfactorial, numpy's
  Poisson sampler and scipy's Delaunay triangulation) are kept abstract as
  function-valued fields or parameters: only their types and the way HAL.py uses
  them matter for the claims below.
* Python assertions become `Except String` results: `Except.error msg` models an
  AssertionError with that message.
-/

namespace HawcHal

/-- One energy/nHit analysis bin of the map tree (`DataAnalysisBin` of map_tree.py,
external to src/: only the fields HAL.py consumes are modelled). `observation` and
`background` are the sparse maps restricted to the ROI pixels (`as_partial()`),
`nTransits` the exposure, and `pixArea` the value `hp.nside2pixarea(nside, degrees=True)`
for the bin's nside. -/
structure DataAnalysisBin where
  observation : List ℝ
  background : List ℝ
  nTransits : ℝ
  pixArea : ℝ

instance : Inhabited DataAnalysisBin := ⟨⟨[], [], 0, 0⟩⟩

/-- The two numba signatures of `log_likelihood` in HAL.py: the expected model counts
are either a per-pixel array (float64[:]) or a bare scalar (float64; the scalar 0.0 is
produced by `_get_expectation` when no source contributes). -/
inductive ModelCounts where
  | scalar : ℝ → ModelCounts
  | arr : List ℝ → ModelCounts

/-- HAL.py `log_likelihood` (lines 62-84): `predicted = bkg + model` and the result is
`sum(observed * log(predicted) - predicted)` over the pixels. In the scalar case numpy
broadcasts the scalar model over the background array. -/
noncomputable def log_likelihood (observed bkg : List ℝ) : ModelCounts → ℝ
  | ModelCounts.scalar m =>
      (List.zipWith (fun o b => o * Real.log (b + m) - (b + m)) observed bkg).sum
  | ModelCounts.arr m =>
      (List.zipWith3 (fun o b mm => o * Real.log (b + mm) - (b + mm)) observed bkg m).sum

/-- A point source of the likelihood model. The external ConvolvedPointSource class
(convolved_source.py, outside src/) turns it into a per-energy-bin flat-sky flux map;
that map, `get_source_map(energy_bin_id)`, is kept abstract as a function. -/
structure PointSource where
  sourceMap : ℕ → List ℝ

/-- An extended source of the likelihood model: its spatial shape dimensionality
(`spatial_shape.n_dim`) and the abstract per-energy-bin flat-sky map produced by the
external ConvolvedExtendedSource2D/3D classes. -/
structure ExtendedSource where
  nDim : ℕ
  sourceMap : ℕ → List ℝ

/-- The astromodels LikelihoodModel as HAL.py consumes it: its point sources and
extended sources. -/
structure LikelihoodModel where
  pointSources : List PointSource
  extendedSources : List ExtendedSource

/-- A cached entry of the extended-source ConvolvedSourcesContainer: HAL.set_model
branches on `spatial_shape.n_dim == 2` and stores either a ConvolvedExtendedSource2D
or a ConvolvedExtendedSource3D. -/
inductive ConvolvedExtSource where
  | ext2D : (ℕ → List ℝ) → ConvolvedExtSource
  | ext3D : (ℕ → List ℝ) → ConvolvedExtSource

/-- The per-energy-bin flat-sky map of a cached extended source. -/
def ConvolvedExtSource.get_source_map : ConvolvedExtSource → ℕ → List ℝ
  | ConvolvedExtSource.ext2D f, i => f i
  | ConvolvedExtSource.ext3D f, i => f i

/-- The state of a HAL plugin instance that the claims touch. The two
ConvolvedSourcesContainer caches are the lists of per-energy-bin flat-sky maps;
`psfConvolutorsSetup` is what `_setup_psf_convolutors` would install (one external
PSFConvolutor per central response bin); `flatSkyToHealpixTransform` is the list of
external FlatSkyToHealpixTransform callables, one per analysis bin;
`logFactorials` and `saturatedModelLike` are the arrays precomputed by
`_compute_likelihood_biases`. -/
structure HAL where
  name : String
  maptree : List DataAnalysisBin
  likelihoodModel : LikelihoodModel
  convolvedPointSources : List (ℕ → List ℝ)
  convolvedExtSources : List ConvolvedExtSource
  activePlanes : List ℕ
  flatSkyPixelArea : ℝ
  flatSkyToHealpixTransform : List (List ℝ → List ℝ)
  psfConvolutors : List (List ℝ → List ℝ)
  psfConvolutorsSetup : List (List ℝ → List ℝ)
  logFactorials : List ℝ
  saturatedModelLike : List ℝ

/-- HAL `self._all_planes = range(len(self._maptree))`, fixed at construction. -/
def HAL.allPlanes (h : HAL) : List ℕ := List.range h.maptree.length

/-- HAL.set_active_measurements: asserts both endpoints are legal plane indices and
overwrites `_active_planes` with `range(bin_id_min, bin_id_max + 1)`. -/
def HAL.set_active_measurements (h : HAL) (binIdMin binIdMax : ℕ) : Except String HAL :=
  if binIdMin ∈ h.allPlanes ∧ binIdMax ∈ h.allPlanes then
    Except.ok { h with activePlanes := List.range' binIdMin (binIdMax + 1 - binIdMin) }
  else
    Except.error "Illegal bin_name numbers"

/-- HAL.set_model: store the model, reset both caches, append one ConvolvedPointSource
per point source, and if there is at least one extended source first (re)build the PSF
convolutors (`_setup_psf_convolutors`) and then append one ConvolvedExtendedSource2D or
3D per extended source depending on `spatial_shape.n_dim`. -/
def HAL.set_model (h : HAL) (m : LikelihoodModel) : HAL :=
  { h with
    likelihoodModel := m
    convolvedPointSources := m.pointSources.map (fun s => s.sourceMap)
    convolvedExtSources := m.extendedSources.map (fun s =>
      if s.nDim = 2 then ConvolvedExtSource.ext2D s.sourceMap
      else ConvolvedExtSource.ext3D s.sourceMap)
    psfConvolutors :=
      if 0 < m.extendedSources.length then h.psfConvolutorsSetup else h.psfConvolutors }

/-- HAL._get_expectation: accumulate the exposure-scaled point-source maps (starting
from `None`), accumulate the unscaled extended-source maps, convolve their sum with the
bin's PSF convolutor and scale by exposure, add the two contributions; if anything
contributed, divide by the flat-sky pixel area, push through the bin's flat-sky-to-HEALPix
transform and multiply by the HEALPix pixel area; if nothing contributed, return the
scalar 0.0. -/
noncomputable def HAL.getExpectation (h : HAL) (bin : DataAnalysisBin)
    (energyBinId nPointSources nExtSources : ℕ) : ModelCounts :=
  let ptsMap : Option (List ℝ) :=
    (List.range nPointSources).foldl
      (fun acc ptsId =>
        let e := ((h.convolvedPointSources.getD ptsId (fun _ => [])) energyBinId).map
          (fun v => v * bin.nTransits)
        match acc with
        | none => some e
        | some m => some (List.zipWith (fun a b => a + b) m e))
      none
  let modelMap : Option (List ℝ) :=
    if 0 < nExtSources then
      let extMap : Option (List ℝ) :=
        (List.range nExtSources).foldl
          (fun acc extId =>
            let e := (h.convolvedExtSources.getD extId
              (ConvolvedExtSource.ext2D (fun _ => []))).get_source_map energyBinId
            match acc with
            | none => some e
            | some m => some (List.zipWith (fun a b => a + b) m e))
          none
      let convolved := ((h.psfConvolutors.getD energyBinId id) (extMap.getD [])).map
        (fun v => v * bin.nTransits)
      match ptsMap with
      | none => some convolved
      | some m => some (List.zipWith (fun a b => a + b) m convolved)
    else ptsMap
  match modelMap with
  | none => ModelCounts.scalar 0
  | some m =>
      ModelCounts.arr
        (((h.flatSkyToHealpixTransform.getD energyBinId id)
            (m.map (fun v => v / h.flatSkyPixelArea))).map
          (fun v => v * bin.pixArea))

/-- HAL.get_log_like: assert the cached source counts still match the model (else an
AssertionError, modelled as `Except.error`), then sum, over the enumerated map tree,
skipping planes outside `_active_planes`, the raw per-bin Poisson log-likelihood minus
the bin's precomputed log-factorial and saturated-model terms. -/
noncomputable def HAL.get_log_like (h : HAL) : Except String ℝ :=
  let nPointSources := h.likelihoodModel.pointSources.length
  let nExtSources := h.likelihoodModel.extendedSources.length
  if nPointSources = h.convolvedPointSources.length ∧
      nExtSources = h.convolvedExtSources.length then
    Except.ok
      ((h.maptree.enum.map (fun p =>
        if p.1 ∈ h.activePlanes then
          log_likelihood p.2.observation p.2.background
              (h.getExpectation p.2 p.1 nPointSources nExtSources)
            - h.logFactorials.getD p.1 0
            - h.saturatedModelLike.getD p.1 0
        else 0)).sum)
  else
    Except.error "The number of sources has changed. Please re-assign the model to the plugin."

/-- The saturated model of `_compute_likelihood_biases`: `np.maximum(obs - bkg, 1e-30)`. -/
noncomputable def saturatedModel (obs bkg : List ℝ) : List ℝ :=
  List.zipWith (fun o b => max (o - b) 1e-30) obs bkg

/-- HAL._compute_likelihood_biases, parametric in the external threeML `logfactorial`:
per analysis bin, store the summed log-factorial of the observed counts and the
log-likelihood of the saturated model minus that log-factorial. -/
noncomputable def HAL.compute_likelihood_biases (logfact : ℝ → ℝ) (h : HAL) : HAL :=
  { h with
    logFactorials := h.maptree.map (fun bin => (bin.observation.map logfact).sum)
    saturatedModelLike := h.maptree.map (fun bin =>
      log_likelihood bin.observation bin.background
          (ModelCounts.arr (saturatedModel bin.observation bin.background))
        - (bin.observation.map logfact).sum) }

/-- HAL.get_saturated_model_likelihood: `np.sum(self._saturated_model_like_per_maptree)`. -/
noncomputable def HAL.get_saturated_model_likelihood (h : HAL) : ℝ :=
  h.saturatedModelLike.sum

/-- HAL.get_number_of_data_points: sum of `observation_map.as_partial().shape[0]` over
the whole map tree. -/
def HAL.get_number_of_data_points (h : HAL) : ℕ :=
  (h.maptree.map (fun bin => bin.observation.length)).sum

/-- Broadcasting `expectation + background` for the two shapes `_get_expectation` can
return (`get_simulated_dataset` adds the background map to the expectation). -/
noncomputable def addBackground : ModelCounts → List ℝ → List ℝ
  | ModelCounts.scalar s, bkg => bkg.map (fun b => s + b)
  | ModelCounts.arr m, bkg => List.zipWith (fun a b => a + b) m bkg

/-- HAL.get_simulated_dataset on a fresh instance (`self._clone is None`): per plane,
cache the expectation plus background for active planes (None for inactive ones), take
the clone (a deep copy, or self under a parallel client — the identity on the modelled
value either way), then for every active plane replace the observation map with a
Poisson draw from the cached expectation, leave the other planes alone, rename the clone
and recompute its likelihood biases. The numpy Poisson sampler is abstracted as a
function from the plane index and the per-pixel expectations to the drawn counts. -/
noncomputable def HAL.get_simulated_dataset (poisson : ℕ → List ℝ → List ℝ)
    (logfact : ℝ → ℝ) (h : HAL) (name : String) : HAL :=
  let nPointSources := h.likelihoodModel.pointSources.length
  let nExtSources := h.likelihoodModel.extendedSources.length
  let expectations : List (Option (List ℝ)) :=
    h.maptree.enum.map (fun p =>
      if p.1 ∈ h.activePlanes then
        some (addBackground (h.getExpectation p.2 p.1 nPointSources nExtSources)
          p.2.background)
      else none)
  let newMaptree :=
    h.maptree.enum.map (fun p =>
      if p.1 ∈ h.activePlanes then
        { p.2 with observation := poisson p.1 ((expectations.getD p.1 none).getD []) }
      else p.2)
  HAL.compute_likelihood_biases logfact { h with maptree := newMaptree, name := name }

/-- HAWCResponse with the per-declination-bin payloads kept abstract: `responseBins`
models the OrderedDict from declination-bin center to the list of ResponseBin instances
(response.py), as the ordered list of its (key, value) pairs; a genuine dict has no
duplicate keys, so positional access at an index of `keys()` agrees with the dict
lookup `self._response_bins[dec_bins_keys[i]]`. The declination values live in an
arbitrary linear ordered field so that the lookup stays executable. -/
structure HAWCResponse (α β : Type) where
  responseBins : List (α × β)

/-- Python `min(range(n), key=f)` as used by get_response_dec_bin: scan left to right
keeping the current best index, replacing it only on a strict decrease of the key, so
the first index attaining the minimum wins. -/
def pyMinKey {α : Type} [LinearOrder α] : List ℕ → (ℕ → α) → ℕ
  | [], _ => 0
  | x :: xs, f => xs.foldl (fun best i => if f i < f best then i else best) x

/-- HAWCResponse.get_response_dec_bin: pick the index of the declination-bin key
closest in absolute difference to `dec` (first one on ties) and return that bin's
response-bin list together with the index. -/
def HAWCResponse.get_response_dec_bin {α β : Type} [LinearOrderedField α] [Inhabited β]
    (r : HAWCResponse α β) (dec : α) : β × ℕ :=
  let keys := r.responseBins.map Prod.fst
  let closestDecId := pyMinKey (List.range keys.length) (fun i => |keys.getD i 0 - dec|)
  ((r.responseBins.map Prod.snd).getD closestDecId default, closestDecId)

/-- One row of the scipy Delaunay data consumed by interp_weights for one target point
(fast_linear_interpolator.py): `T` is `temp[:d, :]` (the d×d matrix of the enclosing
simplex's barycentric transform) and `r` is `temp[d]` (its offset row). The
triangulation itself (qhull) is external. -/
structure SimplexTransform (d : ℕ) where
  T : Fin d → Fin d → ℝ
  r : Fin d → ℝ

/-- The weight row that interp_weights stores for one target point: the d independent
barycentric coordinates `bary = einsum(T, uv - r)` followed by `1 - bary.sum()`
(the hstack of `bary` and `1 - bary.sum(axis=1)`). -/
def interpWeightsRow {d : ℕ} (st : SimplexTransform d) (uv : Fin d → ℝ) : List ℝ :=
  let bary := List.ofFn (fun j => (List.ofFn (fun k => st.T j k * (uv k - st.r k))).sum)
  bary ++ [1 - bary.sum]

/-- The weights member of a constructed FastLinearInterpolator: interp_weights applied
to every target point, each point coming with the simplex-transform row qhull found
for it. -/
def fastLinearInterpolatorWts {d : ℕ}
    (points : List (SimplexTransform d × (Fin d → ℝ))) : List (List ℝ) :=
  points.map (fun p => interpWeightsRow p.1 p.2)

/-! Concrete instances used by witnesses and counterexamples. -/

/-- A minimal HAL instance: empty map tree, empty model, empty caches. -/
def halEmpty : HAL :=
  { name := "HAWC"
    maptree := []
    likelihoodModel := ⟨[], []⟩
    convolvedPointSources := []
    convolvedExtSources := []
    activePlanes := []
    flatSkyPixelArea := 1
    flatSkyToHealpixTransform := []
    psfConvolutors := []
    psfConvolutorsSetup := []
    logFactorials := []
    saturatedModelLike := [] }

/-- A point source whose flat-sky map is the one-pixel grid [1] in every energy bin. -/
def psOne : PointSource := ⟨fun _ => [1]⟩

/-- A HAL whose model claims one point source while the point-source cache is empty
(the model changed without reassigning it to the plugin). -/
def halStale : HAL := { halEmpty with likelihoodModel := ⟨[psOne], []⟩ }

/-- A two-plane HAL: plane 0 holds one pixel, plane 1 holds two pixels. -/
def hal4 : HAL :=
  { halEmpty with
    maptree := [⟨[1], [1], 1, 1⟩, ⟨[1, 1], [1, 1], 1, 1⟩]
    activePlanes := [0, 1] }

/-- hal4 after set_active_measurements 0 0. -/
def hal4active : HAL := { hal4 with activePlanes := List.range' 0 (0 + 1 - 0) }

theorem hal4_set_active_eq :
    hal4.set_active_measurements 0 0 = Except.ok hal4active := by
  have hv : 0 ∈ hal4.allPlanes ∧ 0 ∈ hal4.allPlanes := by constructor <;> decide
  rw [HAL.set_active_measurements, if_pos hv]
  rfl

/-! Helper lemmas. -/

/-- Summing a function that is zeroed outside a decidable predicate equals summing the
function over the filtered list. -/
theorem sum_map_ite_filter {α : Type} (l : List α) (p : α → Prop) [DecidablePred p]
    (f : α → ℝ) :
    (l.map (fun x => if p x then f x else 0)).sum =
      ((l.filter (fun x => decide (p x))).map f).sum := by
  induction l with
  | nil => rfl
  | cons a t ih =>
    by_cases hpa : p a
    · simp [hpa, ih]
    · simp [hpa, ih]

/-- A successful set_active_measurements only rewrites the active-plane selection. -/
theorem set_active_measurements_ok {h h' : HAL} {i j : ℕ}
    (hset : h.set_active_measurements i j = Except.ok h') :
    h' = { h with activePlanes := List.range' i (j + 1 - i) } := by
  rw [HAL.set_active_measurements] at hset
  split at hset
  · injection hset with hh
    exact hh.symm
  · exact absurd hset (by simp)

/-! Claim C6. -/

/-- C6: every weight row stored by a constructed FastLinearInterpolator sums to
exactly 1: the first d entries are the computed barycentric coordinates and the last
entry is defined as 1 minus their sum. -/
theorem interp_weights_sum_to_one {d : ℕ}
    (points : List (SimplexTransform d × (Fin d → ℝ))) (row : List ℝ)
    (hrow : row ∈ fastLinearInterpolatorWts points) : row.sum = 1 := by
  rcases List.mem_map.mp hrow with ⟨p, _, rfl⟩
  simp only [interpWeightsRow, List.sum_append, List.sum_cons, List.sum_nil]
  ring

/-- The all-zero simplex transform in two dimensions. -/
def stZero : SimplexTransform 2 := ⟨fun _ _ => 0, fun _ => 0⟩

theorem interp_weights_sum_to_one_witness :
    (interpWeightsRow stZero (fun _ => 0)).sum = 1 :=
  interp_weights_sum_to_one [⟨stZero, fun _ => 0⟩] _
    (List.mem_singleton.mpr rfl)

/-! Claim C8. -/

/-- C8: set_active_measurements demands two legal plane indices, failing otherwise,
and on success overwrites the entire previous selection with exactly the inclusive
range of planes from binIdMin to binIdMax (no incremental add or remove). -/
theorem set_active_measurements_contract (h : HAL) (i j : ℕ) :
    (i ∈ h.allPlanes ∧ j ∈ h.allPlanes →
      h.set_active_measurements i j =
        Except.ok { h with activePlanes := List.range' i (j + 1 - i) } ∧
      ∀ k, k ∈ List.range' i (j + 1 - i) ↔ i ≤ k ∧ k ≤ j) ∧
    (¬(i ∈ h.allPlanes ∧ j ∈ h.allPlanes) →
      h.set_active_measurements i j = Except.error "Illegal bin_name numbers") := by
  constructor
  · intro hvalid
    refine ⟨by rw [HAL.set_active_measurements, if_pos hvalid], ?_⟩
    intro k
    rw [List.mem_range'_1]
    omega
  · intro hinvalid
    rw [HAL.set_active_measurements, if_neg hinvalid]

theorem set_active_measurements_contract_witness :
    (hal4.set_active_measurements 0 1 =
        Except.ok { hal4 with activePlanes := List.range' 0 (1 + 1 - 0) } ∧
      ∀ k, k ∈ List.range' 0 (1 + 1 - 0) ↔ 0 ≤ k ∧ k ≤ 1) ∧
    hal4.set_active_measurements 5 0 = Except.error "Illegal bin_name numbers" :=
  ⟨(set_active_measurements_contract hal4 0 1).1 (by constructor <;> decide),
   (set_active_measurements_contract hal4 5 0).2 (by intro hc; exact absurd hc.1 (by decide))⟩

/-! Claim C4 (corrected): get_number_of_data_points iterates over the whole map tree,
not over the active selection. -/

/-- C4 counterexample: in hal4, activating only plane 0 (one pixel) still leaves
get_number_of_data_points equal to 3, the pixel count of both planes, not 1. -/
theorem number_of_data_points_selection_counterexample :
    hal4.set_active_measurements 0 0 = Except.ok hal4active ∧
    hal4active.get_number_of_data_points = 3 ∧
    (hal4active.maptree.getD 0 default).observation.length = 1 :=
  ⟨hal4_set_active_eq, rfl, rfl⟩

/-- C4 amended: get_number_of_data_points counts the pixels of every analysis bin in
the map tree, whatever range was activated via set_active_measurements. -/
theorem number_of_data_points_counts_all_planes (h h' : HAL) (i j : ℕ)
    (hset : h.set_active_measurements i j = Except.ok h') :
    h'.get_number_of_data_points =
      (h.maptree.map (fun bin => bin.observation.length)).sum := by
  rw [set_active_measurements_ok hset]
  rfl

theorem number_of_data_points_counts_all_planes_witness :
    hal4active.get_number_of_data_points =
      (hal4.maptree.map (fun bin => bin.observation.length)).sum :=
  number_of_data_points_counts_all_planes hal4 hal4active 0 0 hal4_set_active_eq

/-! Claim C2. -/

/-- C2: after set_model the point-source cache holds exactly one entry per point source
and the extended-source cache one entry per extended source of the model; and whenever
get_log_like runs while either cached count differs from the model's current count of
that kind, it fails with the consistency AssertionError instead of returning a value. -/
theorem set_model_cache_counts_and_stale_fails (h hstale : HAL) (m : LikelihoodModel)
    (hne : hstale.likelihoodModel.pointSources.length ≠
             hstale.convolvedPointSources.length ∨
           hstale.likelihoodModel.extendedSources.length ≠
             hstale.convolvedExtSources.length) :
    (h.set_model m).convolvedPointSources.length = m.pointSources.length ∧
    (h.set_model m).convolvedExtSources.length = m.extendedSources.length ∧
    hstale.get_log_like = Except.error
      "The number of sources has changed. Please re-assign the model to the plugin." := by
  refine ⟨by simp [HAL.set_model], by simp [HAL.set_model], ?_⟩
  rw [HAL.get_log_like, if_neg]
  tauto

theorem set_model_cache_counts_and_stale_fails_witness :
    (halEmpty.set_model ⟨[psOne], []⟩).convolvedPointSources.length =
      (⟨[psOne], []⟩ : LikelihoodModel).pointSources.length ∧
    (halEmpty.set_model ⟨[psOne], []⟩).convolvedExtSources.length =
      (⟨[psOne], []⟩ : LikelihoodModel).extendedSources.length ∧
    halStale.get_log_like = Except.error
      "The number of sources has changed. Please re-assign the model to the plugin." :=
  set_model_cache_counts_and_stale_fails halEmpty halStale ⟨[psOne], []⟩
    (Or.inl (by simp [halStale, halEmpty]))

/-! Claim C10. -/

/-- C10: get_saturated_model_likelihood sums the per-bin saturated terms precomputed by
_compute_likelihood_biases over every analysis bin of the map tree; changing the active
selection via set_active_measurements never changes its value. -/
theorem saturated_model_likelihood_ignores_selection (h h' h0 : HAL) (i j : ℕ)
    (logfact : ℝ → ℝ)
    (hset : h.set_active_measurements i j = Except.ok h') :
    h'.get_saturated_model_likelihood = h.get_saturated_model_likelihood ∧
    (HAL.compute_likelihood_biases logfact h0).get_saturated_model_likelihood =
      (h0.maptree.map (fun bin =>
        log_likelihood bin.observation bin.background
            (ModelCounts.arr (saturatedModel bin.observation bin.background))
          - (bin.observation.map logfact).sum)).sum := by
  refine ⟨?_, rfl⟩
  rw [set_active_measurements_ok hset]
  rfl

theorem saturated_model_likelihood_ignores_selection_witness :
    hal4active.get_saturated_model_likelihood = hal4.get_saturated_model_likelihood ∧
    (HAL.compute_likelihood_biases (fun _ => 0) halEmpty).get_saturated_model_likelihood =
      (halEmpty.maptree.map (fun bin =>
        log_likelihood bin.observation bin.background
            (ModelCounts.arr (saturatedModel bin.observation bin.background))
          - (bin.observation.map (fun _ => 0)).sum)).sum :=
  saturated_model_likelihood_ignores_selection hal4 hal4active halEmpty 0 0 (fun _ => 0)
    hal4_set_active_eq

/-! Claim C1. -/

/-- C1: with a consistent cache, get_log_like succeeds and returns the sum, over the
active enumerated planes only, of the raw per-bin Poisson log-likelihood of the bin's
model expectation, minus that bin's precomputed log-factorial term, minus that bin's
precomputed saturated-model term; planes outside the active selection contribute
nothing to the sum. -/
theorem get_log_like_eq_sum_over_active (h : HAL)
    (hc : h.likelihoodModel.pointSources.length = h.convolvedPointSources.length ∧
          h.likelihoodModel.extendedSources.length = h.convolvedExtSources.length) :
    h.get_log_like = Except.ok
      (((h.maptree.enum.filter (fun p => decide (p.1 ∈ h.activePlanes))).map (fun p =>
        log_likelihood p.2.observation p.2.background
            (h.getExpectation p.2 p.1 h.likelihoodModel.pointSources.length
              h.likelihoodModel.extendedSources.length)
          - h.logFactorials.getD p.1 0
          - h.saturatedModelLike.getD p.1 0)).sum) := by
  rw [HAL.get_log_like]
  rw [if_pos hc]
  exact congrArg Except.ok (sum_map_ite_filter h.maptree.enum
    (fun p => p.1 ∈ h.activePlanes) _)

theorem get_log_like_eq_sum_over_active_witness :
    halEmpty.get_log_like = Except.ok
      (((halEmpty.maptree.enum.filter
          (fun p => decide (p.1 ∈ halEmpty.activePlanes))).map (fun p =>
        log_likelihood p.2.observation p.2.background
            (halEmpty.getExpectation p.2 p.1
              halEmpty.likelihoodModel.pointSources.length
              halEmpty.likelihoodModel.extendedSources.length)
          - halEmpty.logFactorials.getD p.1 0
          - halEmpty.saturatedModelLike.getD p.1 0)).sum) :=
  get_log_like_eq_sum_over_active halEmpty ⟨rfl, rfl⟩

/-! Claim C5. -/

/-- With no point sources and no extended sources requested, _get_expectation
short-circuits to the scalar 0.0. -/
theorem getExpectation_no_sources (h : HAL) (bin : DataAnalysisBin) (i : ℕ) :
    h.getExpectation bin i 0 0 = ModelCounts.scalar 0 := by
  rw [HAL.getExpectation]
  simp

/-- C5: when the model holds no point and no extended sources (and the caches agree),
the expectation builder returns the scalar 0 for every plane rather than a zero-filled
grid, and get_log_like still succeeds, scoring every active plane with that scalar
model. -/
theorem no_sources_scalar_zero_model (h : HAL) (bin : DataAnalysisBin) (i : ℕ)
    (hm : h.likelihoodModel.pointSources = [] ∧ h.likelihoodModel.extendedSources = [] ∧
          h.convolvedPointSources = [] ∧ h.convolvedExtSources = []) :
    h.getExpectation bin i 0 0 = ModelCounts.scalar 0 ∧
    h.get_log_like = Except.ok
      ((h.maptree.enum.map (fun p =>
        if p.1 ∈ h.activePlanes then
          log_likelihood p.2.observation p.2.background (ModelCounts.scalar 0)
            - h.logFactorials.getD p.1 0
            - h.saturatedModelLike.getD p.1 0
        else 0)).sum) := by
  obtain ⟨h1, h2, h3, h4⟩ := hm
  refine ⟨getExpectation_no_sources h bin i, ?_⟩
  rw [HAL.get_log_like]
  simp only [h1, h2, h3, h4, List.length_nil]
  rw [if_pos (by simp)]
  refine congrArg Except.ok (congrArg List.sum (List.map_congr_left ?_))
  intro p _
  by_cases hact : p.1 ∈ h.activePlanes
  · rw [if_pos hact, if_pos hact, getExpectation_no_sources]
  · rw [if_neg hact, if_neg hact]

theorem no_sources_scalar_zero_model_witness :
    halEmpty.getExpectation default 0 0 0 = ModelCounts.scalar 0 ∧
    halEmpty.get_log_like = Except.ok
      ((halEmpty.maptree.enum.map (fun p =>
        if p.1 ∈ halEmpty.activePlanes then
          log_likelihood p.2.observation p.2.background (ModelCounts.scalar 0)
            - halEmpty.logFactorials.getD p.1 0
            - halEmpty.saturatedModelLike.getD p.1 0
        else 0)).sum) :=
  no_sources_scalar_zero_model halEmpty default 0 ⟨rfl, rfl, rfl, rfl⟩

/-! Claim C7. -/

/-- C7: get_simulated_dataset leaves the observation map of every plane outside the
active selection unchanged in the returned instance; only active planes receive the
new Poisson draw. -/
theorem simulated_dataset_inactive_planes_unchanged (h : HAL)
    (poisson : ℕ → List ℝ → List ℝ) (logfact : ℝ → ℝ) (name : String) (i : ℕ)
    (hi : i ∉ h.activePlanes) :
    ((h.get_simulated_dataset poisson logfact name).maptree.getD i default).observation
      = (h.maptree.getD i default).observation := by
  rw [HAL.get_simulated_dataset]
  simp only [HAL.compute_likelihood_biases]
  rw [List.getD_eq_getElem?_getD, List.getD_eq_getElem?_getD, List.getElem?_map,
    List.getElem?_enum]
  cases hme : h.maptree[i]? with
  | none => rfl
  | some bin => simp [hi]

theorem simulated_dataset_inactive_planes_unchanged_witness :
    ((hal4active.get_simulated_dataset (fun _ e => e) (fun _ => 0) "sim").maptree.getD 1
        default).observation
      = (hal4active.maptree.getD 1 default).observation :=
  simulated_dataset_inactive_planes_unchanged hal4active (fun _ e => e) (fun _ => 0)
    "sim" 1 (by decide)

/-! Claim C3 (corrected): get_log_like subtracts each active bin's saturated term as a
bias, so with the model pinned to the saturated model it returns 0, not the value of
get_saturated_model_likelihood. -/

/-- A one-plane HAL whose single point source's flat-sky map is exactly the saturated
model [1e-30] of its data (obs = bkg = [1]); every geometric factor is 1 and the
flat-sky-to-HEALPix transform is the identity, so the expectation reproduces the
saturated model exactly. -/
noncomputable def hal3base : HAL :=
  { name := "h"
    maptree := [⟨[1], [1], 1, 1⟩]
    likelihoodModel := ⟨[⟨fun _ => [1e-30]⟩], []⟩
    convolvedPointSources := [fun _ => [1e-30]]
    convolvedExtSources := []
    activePlanes := [0]
    flatSkyPixelArea := 1
    flatSkyToHealpixTransform := [id]
    psfConvolutors := []
    psfConvolutorsSetup := []
    logFactorials := []
    saturatedModelLike := [] }

/-- hal3base with its likelihood biases precomputed; the log-factorial of a single
observed count of 1 is 0, so the constant-zero logfactorial is exact here. -/
noncomputable def hal3 : HAL := HAL.compute_likelihood_biases (fun _ => 0) hal3base

theorem satModel_one_one : saturatedModel [(1 : ℝ)] [1] = [1e-30] := by
  rw [saturatedModel]
  show [max ((1 : ℝ) - 1) 1e-30] = [1e-30]
  rw [max_eq_right (by norm_num)]

theorem hal3_enum_eq :
    hal3.maptree.enum = [((0 : ℕ), (⟨[1], [1], 1, 1⟩ : DataAnalysisBin))] := rfl

theorem hal3_expectation_eq :
    hal3.getExpectation ⟨[1], [1], 1, 1⟩ 0 1 0 =
      ModelCounts.arr (saturatedModel [1] [1]) := by
  rw [satModel_one_one, HAL.getExpectation]
  have hr : List.range 1 = [0] := by decide
  simp [hal3, hal3base, HAL.compute_likelihood_biases, hr]

theorem hal3_logfact_eq : hal3.logFactorials = [0] := by
  simp [hal3, hal3base, HAL.compute_likelihood_biases]

theorem log_likelihood_sat_one :
    log_likelihood [(1 : ℝ)] [1] (ModelCounts.arr (saturatedModel [1] [1])) =
      Real.log (1 + 1e-30) - (1 + 1e-30) := by
  rw [satModel_one_one]
  simp [log_likelihood, List.zipWith3]

theorem hal3_satlike_eq :
    hal3.saturatedModelLike = [Real.log (1 + 1e-30) - (1 + 1e-30)] := by
  simp only [hal3, hal3base, HAL.compute_likelihood_biases]
  simp [log_likelihood_sat_one]

/-- Unfolding of get_log_like when the cache-consistency assertion passes. -/
theorem get_log_like_ok (h : HAL)
    (hc : h.likelihoodModel.pointSources.length = h.convolvedPointSources.length ∧
          h.likelihoodModel.extendedSources.length = h.convolvedExtSources.length) :
    h.get_log_like = Except.ok
      ((h.maptree.enum.map (fun p =>
        if p.1 ∈ h.activePlanes then
          log_likelihood p.2.observation p.2.background
              (h.getExpectation p.2 p.1 h.likelihoodModel.pointSources.length
                h.likelihoodModel.extendedSources.length)
            - h.logFactorials.getD p.1 0
            - h.saturatedModelLike.getD p.1 0
        else 0)).sum) := by
  rw [HAL.get_log_like, if_pos hc]

theorem hal3_log_like_eq : hal3.get_log_like = Except.ok 0 := by
  rw [get_log_like_ok hal3 ⟨rfl, rfl⟩]
  refine congrArg Except.ok ?_
  rw [hal3_enum_eq]
  have he : hal3.getExpectation ⟨[1], [1], 1, 1⟩ 0
      hal3.likelihoodModel.pointSources.length
      hal3.likelihoodModel.extendedSources.length =
      ModelCounts.arr (saturatedModel [1] [1]) := hal3_expectation_eq
  have hact : (0 : ℕ) ∈ hal3.activePlanes := by decide
  simp only [List.map_cons, List.map_nil, List.sum_cons, List.sum_nil, add_zero]
  rw [if_pos hact, he, log_likelihood_sat_one, hal3_satlike_eq, hal3_logfact_eq]
  simp only [List.getD_cons_zero]
  ring

theorem hal3_sat_le : hal3.get_saturated_model_likelihood ≤ -1 := by
  rw [HAL.get_saturated_model_likelihood, hal3_satlike_eq]
  have hlog : Real.log (1 + 1e-30) ≤ (1 + 1e-30) - 1 :=
    Real.log_le_sub_one_of_pos (by norm_num)
  simp only [List.sum_cons, List.sum_nil, add_zero]
  linarith

/-- C3 counterexample: hal3's model expectation for its only (and active) plane is
exactly the saturated model, yet get_log_like returns 0 while
get_saturated_model_likelihood is at most -1: the two differ by at least 1, far beyond
any floating-point tolerance. -/
theorem saturated_likelihood_equality_counterexample :
    hal3.getExpectation ⟨[1], [1], 1, 1⟩ 0 1 0 =
      ModelCounts.arr (saturatedModel [1] [1]) ∧
    hal3.get_log_like = Except.ok 0 ∧
    hal3.get_saturated_model_likelihood ≤ -1 ∧
    hal3.get_log_like ≠ Except.ok hal3.get_saturated_model_likelihood := by
  refine ⟨hal3_expectation_eq, hal3_log_like_eq, hal3_sat_le, ?_⟩
  intro heq
  rw [hal3_log_like_eq] at heq
  have h0 : (0 : ℝ) = hal3.get_saturated_model_likelihood := by injection heq
  have hle := hal3_sat_le
  rw [← h0] at hle
  norm_num at hle

/-- C3 amended: if for every active plane the model expectation equals the saturated
model max(obs - bkg, 1e-30) and the stored per-plane bias terms are those precomputed
by _compute_likelihood_biases (the saturated term equals the raw saturated
log-likelihood minus the stored log-factorial), then get_log_like returns exactly 0 —
the bias subtraction normalizes the saturated model to zero — rather than the value of
get_saturated_model_likelihood; the two agree only when the latter is itself 0. -/
theorem get_log_like_at_saturated_model_is_zero (h : HAL)
    (hc : h.likelihoodModel.pointSources.length = h.convolvedPointSources.length ∧
          h.likelihoodModel.extendedSources.length = h.convolvedExtSources.length)
    (hexp : ∀ p ∈ h.maptree.enum, p.1 ∈ h.activePlanes →
      h.getExpectation p.2 p.1 h.likelihoodModel.pointSources.length
          h.likelihoodModel.extendedSources.length =
        ModelCounts.arr (saturatedModel p.2.observation p.2.background))
    (hsat : ∀ p ∈ h.maptree.enum, p.1 ∈ h.activePlanes →
      h.saturatedModelLike.getD p.1 0 =
        log_likelihood p.2.observation p.2.background
            (ModelCounts.arr (saturatedModel p.2.observation p.2.background))
          - h.logFactorials.getD p.1 0) :
    h.get_log_like = Except.ok 0 := by
  rw [get_log_like_ok h hc]
  refine congrArg Except.ok ?_
  apply List.sum_eq_zero
  intro x hx
  rcases List.mem_map.mp hx with ⟨p, hp, rfl⟩
  by_cases hact : p.1 ∈ h.activePlanes
  · rw [if_pos hact, hexp p hp hact, hsat p hp hact]
    ring
  · rw [if_neg hact]

theorem get_log_like_at_saturated_model_is_zero_witness :
    hal3.get_log_like = Except.ok 0 :=
  get_log_like_at_saturated_model_is_zero hal3 ⟨rfl, rfl⟩
    (by
      intro p hp _
      rw [hal3_enum_eq, List.mem_singleton] at hp
      subst hp
      exact hal3_expectation_eq)
    (by
      intro p hp _
      rw [hal3_enum_eq, List.mem_singleton] at hp
      subst hp
      rfl)

/-! Claim C9. -/

/-- The fold underlying pyMinKey returns either its start value or a list element, and
its key is a lower bound for the start value's key and every element's key. -/
theorem pyMinKey_foldl_spec {α : Type} [LinearOrder α] (f : ℕ → α) (l : List ℕ)
    (b : ℕ) :
    (l.foldl (fun best i => if f i < f best then i else best) b = b ∨
      l.foldl (fun best i => if f i < f best then i else best) b ∈ l) ∧
    f (l.foldl (fun best i => if f i < f best then i else best) b) ≤ f b ∧
    ∀ x ∈ l, f (l.foldl (fun best i => if f i < f best then i else best) b) ≤ f x := by
  induction l generalizing b with
  | nil => exact ⟨Or.inl rfl, le_refl _, by intro x hx; cases hx⟩
  | cons a t ih =>
    simp only [List.foldl_cons]
    by_cases hab : f a < f b
    · rw [if_pos hab]
      obtain ⟨hmem, hle, hall⟩ := ih a
      refine ⟨?_, le_trans hle (le_of_lt hab), ?_⟩
      · rcases hmem with h1 | h1
        · exact Or.inr (by rw [h1]; exact List.mem_cons_self a t)
        · exact Or.inr (List.mem_cons_of_mem a h1)
      · intro x hx
        rcases List.mem_cons.mp hx with rfl | hxt
        · exact hle
        · exact hall x hxt
    · rw [if_neg hab]
      obtain ⟨hmem, hle, hall⟩ := ih b
      refine ⟨?_, hle, ?_⟩
      · rcases hmem with h1 | h1
        · exact Or.inl h1
        · exact Or.inr (List.mem_cons_of_mem a h1)
      · intro x hx
        rcases List.mem_cons.mp hx with rfl | hxt
        · exact le_trans hle (not_lt.mp hab)
        · exact hall x hxt

/-- pyMinKey on a nonempty list returns a list element whose key is minimal. -/
theorem pyMinKey_spec {α : Type} [LinearOrder α] (f : ℕ → α) (x : ℕ) (xs : List ℕ) :
    pyMinKey (x :: xs) f ∈ x :: xs ∧ ∀ y ∈ x :: xs, f (pyMinKey (x :: xs) f) ≤ f y := by
  obtain ⟨hmem, hle, hall⟩ := pyMinKey_foldl_spec f xs x
  constructor
  · rcases hmem with h1 | h1
    · rw [pyMinKey, h1]; exact List.mem_cons_self x xs
    · exact List.mem_cons_of_mem x h1
  · intro y hy
    rcases List.mem_cons.mp hy with rfl | hyt
    · exact hle
    · exact hall y hyt

/-- C9: get_response_dec_bin returns an in-range declination-bin index whose stored bin
center is closest in absolute difference to the requested declination (for every
declination and whatever the order of the stored declination bins), together with the
response-bin list stored at that index. -/
theorem get_response_dec_bin_nearest {α β : Type} [LinearOrderedField α] [Inhabited β]
    (r : HAWCResponse α β) (dec : α) (hne : r.responseBins ≠ []) :
    (r.get_response_dec_bin dec).2 < r.responseBins.length ∧
    (r.get_response_dec_bin dec).1 =
      (r.responseBins.map Prod.snd).getD (r.get_response_dec_bin dec).2 default ∧
    ∀ k, k < r.responseBins.length →
      |(r.responseBins.map Prod.fst).getD (r.get_response_dec_bin dec).2 0 - dec| ≤
        |(r.responseBins.map Prod.fst).getD k 0 - dec| := by
  have hlen : (r.responseBins.map Prod.fst).length = r.responseBins.length :=
    List.length_map _ _
  have hpos : 0 < r.responseBins.length := List.length_pos.mpr hne
  cases hr : List.range (r.responseBins.map Prod.fst).length with
  | nil =>
    exfalso
    have hlr := congrArg List.length hr
    rw [List.length_range, hlen] at hlr
    simp only [List.length_nil] at hlr
    omega
  | cons x xs =>
    have hspec := pyMinKey_spec
      (fun i => |(r.responseBins.map Prod.fst).getD i 0 - dec|) x xs
    rw [← hr] at hspec
    have hclosest : (r.get_response_dec_bin dec).2 =
        pyMinKey (List.range (r.responseBins.map Prod.fst).length)
          (fun i => |(r.responseBins.map Prod.fst).getD i 0 - dec|) := rfl
    refine ⟨?_, rfl, ?_⟩
    · rw [hclosest]
      have := List.mem_range.mp hspec.1
      omega
    · intro k hk
      have hkmem : k ∈ List.range (r.responseBins.map Prod.fst).length :=
        List.mem_range.mpr (by omega)
      exact hspec.2 k hkmem

/-- A concrete two-bin response over ℚ: centers 0 and 3, payloads 10 and 20. -/
def respTwo : HAWCResponse ℚ ℕ := ⟨[(0, 10), (3, 20)]⟩

theorem get_response_dec_bin_nearest_witness :
    (respTwo.get_response_dec_bin 2).2 < respTwo.responseBins.length ∧
    (respTwo.get_response_dec_bin 2).1 =
      (respTwo.responseBins.map Prod.snd).getD (respTwo.get_response_dec_bin 2).2
        default ∧
    ∀ k, k < respTwo.responseBins.length →
      |(respTwo.responseBins.map Prod.fst).getD (respTwo.get_response_dec_bin 2).2 0
          - 2| ≤
        |(respTwo.responseBins.map Prod.fst).getD k 0 - 2| :=
  get_response_dec_bin_nearest respTwo 2 (by decide)

end HawcHal
